import Mathlib

/-!
Verification of the Express + Sequelize authentication backend and its two
React frontends (Context and Redux).  The backend routes, the auth
middleware, the Sequelize `User` model and the frontend state containers are
shallowly embedded below; the external collaborators that the repository
only calls (the `jsonwebtoken` signing library, the `bcryptjs` hashing
library and the browser cookie jar) are modelled from the specification as
ideal injective encodings, as documented on each definition.

The file is organised as definitions first, then the lemmas and the claim
theorems.
-/

namespace AuthRepo

/-! ## Character-list utilities

The backend manipulates header and token strings with JavaScript's
`String.prototype.split` and prefix tests.  We work over `List Char`
(`String.data`) so the proofs can proceed by structural induction. -/

/-- Split a character list at the first occurrence of `sep`, returning the
part before and the part after, or `none` when `sep` does not occur. -/
def splitFirst (sep : Char) : List Char → Option (List Char × List Char)
  | [] => none
  | c :: cs =>
    if c = sep then some ([], cs)
    else (splitFirst sep cs).map (fun pr => (c :: pr.1, pr.2))

/-- Split a character list on every occurrence of `sep`, mirroring
JavaScript's `str.split(sep)`: occurrences are not collapsed and an empty
input yields one empty field. -/
def splitChar (sep : Char) : List Char → List (List Char)
  | [] => [[]]
  | c :: cs =>
    match splitChar sep cs with
    | [] => [[]]
    | h :: t => if c = sep then [] :: h :: t else (c :: h) :: t

/-! ## Escape encoding

Modelled from the spec: tokens are "base64/url-safe encoded so [they] can
travel as an HTTP header value" and consist of "three base64url segments
... joined by `.`".  The `jsonwebtoken` library performing that encoding is
an external dependency, so we model base64url by an executable injective
encoding whose output never contains the segment separator `'.'` or a
space: each character becomes a two-character cell, `'.'` ↦ `%d`,
`' '` ↦ `%s`, `'%'` ↦ `%p` and any other character `c` ↦ `c_`. -/

def escChar (c : Char) : List Char :=
  if c = '.' then ['%', 'd']
  else if c = ' ' then ['%', 's']
  else if c = '%' then ['%', 'p']
  else [c, '_']

def esc : List Char → List Char
  | [] => []
  | c :: cs => escChar c ++ esc cs

/-- Decoder for one two-character cell of `esc`. -/
def unescChar (a b : Char) : Option Char :=
  if a = '%' then
    if b = 'd' then some '.'
    else if b = 's' then some ' '
    else if b = 'p' then some '%'
    else none
  else if b = '_' then some a else none

/-- Decoder for `esc`; fails on a dangling or unknown cell. -/
def unesc : List Char → Option (List Char)
  | [] => some []
  | [_] => none
  | a :: b :: rest =>
    match unescChar a b with
    | none => none
    | some c => (unesc rest).map (fun r => c :: r)

/-! ## Token model

Modelled from the spec: the `jsonwebtoken` dependency is external to the
repository, so its `sign`/`verify` pair is modelled as the spec's token
issuer and validator — a token is "three base64url segments (header,
payload, signature) joined by `.`", the payload carries the claim
`{email, issuedAt}` and the `exp` "in epoch seconds", the signature is an
injective keyed MAC of the payload recomputed on validation, and validation
checks, in order, well-formedness, the signature, and `now >= expiresAt`.
The numeric claim fields use an injective unary numeral encoding. -/

structure Claim where
  email : String
  iat : Nat
  exp : Nat
deriving DecidableEq, Repr

def encodeNat (n : Nat) : List Char := List.replicate n '1'

/-- Serialized claim: unary `iat`, `';'`, unary `exp`, `';'`, then the email
characters verbatim. -/
def encodeClaim (c : Claim) : List Char :=
  encodeNat c.iat ++ ';' :: (encodeNat c.exp ++ ';' :: c.email.data)

def decodePayload (l : List Char) : Option Claim :=
  match splitFirst ';' l with
  | none => none
  | some pr1 =>
    match splitFirst ';' pr1.2 with
    | none => none
    | some pr2 =>
      if pr1.1.all (fun c => c == '1') && pr2.1.all (fun c => c == '1') then
        some ⟨String.mk pr2.2, pr1.1.length, pr2.1.length⟩
      else none

/-- Token error taxonomy of the validator. -/
inductive AuthError
  | MalformedToken
  | InvalidSignature
  | Expired
deriving DecidableEq, Repr

/-- Header segment of every issued token (the source's constant
`alg`/`typ` header, which carries no per-token data). -/
def jwtHeader : List Char := ['J', 'W', 'T']

/-- Modelled from the spec: the HMAC-SHA256 keyed signature, as an ideal
(collision-free) MAC — the escape-encoded pairing of key and payload, so
two payloads collide under one key only when equal. -/
def macChars (secret : String) (p : List Char) : List Char :=
  esc (secret.data ++ '.' :: p)

/-- Wire form of a signed token: `header.payload.signature`. -/
def signChars (secret : String) (c : Claim) : List Char :=
  jwtHeader ++ '.' :: (esc (encodeClaim c) ++ '.' :: macChars secret (esc (encodeClaim c)))

/-- Model of `jwt.sign({ email }, secret, { expiresIn: ttl })` at clock
time `now` (epoch seconds): claim `{email, iat := now, exp := now + ttl}`. -/
def jwtSignStr (secret email : String) (now ttl : Nat) : String :=
  String.mk (signChars secret ⟨email, now, now + ttl⟩)

/-- Model of `jwt.verify(tok, secret)` at clock time `now`: split into the
three segments, recompute the signature over the payload segment, then
decode the claim and check expiry (`now >= exp` rejects). -/
def jwtVerify (secret : String) (now : Nat) (tok : List Char) : Except AuthError Claim :=
  match splitChar '.' tok with
  | [_h, p, s] =>
    if s = macChars secret p then
      match unesc p with
      | none => Except.error AuthError.MalformedToken
      | some raw =>
        match decodePayload raw with
        | none => Except.error AuthError.MalformedToken
        | some c =>
          if c.exp ≤ now then Except.error AuthError.Expired else Except.ok c
    else Except.error AuthError.InvalidSignature
  | _ => Except.error AuthError.MalformedToken

/-! ## Password hashing

Modelled from the spec: the `bcryptjs` dependency is external to the
repository; the spec's `PasswordHasher` capability is
`hash(plaintext) -> HashedPassword` and `verify(plaintext, hash) -> bool`,
with the capability owning salt generation.  We model the salted hash as an
injective keyed encoding `salt ++ '$' ++ body` whose compare recomputes
from the salt carried in the stored hash, as bcrypt does. -/

def hashSync (password salt : String) : String :=
  String.mk (salt.data ++ '$' :: password.data)

def compareSync (password stored : String) : Bool :=
  match splitFirst '$' stored.data with
  | some pr => pr.2 == password.data
  | none => false

/-! ## User storage (Sequelize `User` model over the `users` table)

The `UserModel` declaration of `models/user.model.js` is embedded as one
`ColumnSpec` per attribute, carrying exactly the constraint flags the
source sets (`allowNull`, `primaryKey`; Sequelize's defaults `allowNull :=
true`, `unique := false`, `primaryKey := false` fill the rest).  The
`create` operation enforces precisely those declared constraints. -/

structure ColumnSpec where
  allowNull : Bool
  unique : Bool
  primaryKey : Bool
deriving DecidableEq, Repr

/-- `id: { type: STRING, primaryKey: true }`. -/
def idColumn : ColumnSpec := ⟨true, false, true⟩

/-- `username: { type: STRING, allowNull: false }`. -/
def usernameColumn : ColumnSpec := ⟨false, false, false⟩

/-- `email: { type: STRING, allowNull: false }` — note: no `unique` flag. -/
def emailColumn : ColumnSpec := ⟨false, false, false⟩

/-- `password: { type: STRING, allowNull: false }`. -/
def passwordColumn : ColumnSpec := ⟨false, false, false⟩

/-- `createdAt: { type: DATE, allowNull: false }`. -/
def createdAtColumn : ColumnSpec := ⟨false, false, false⟩

/-- `updatedAt: { type: DATE, allowNull: false }`. -/
def updatedAtColumn : ColumnSpec := ⟨false, false, false⟩

/-- A stored row carries every declared attribute — `timestamps: true`
makes Sequelize manage `createdAt`/`updatedAt` itself (both set to the
insertion clock on `create`); they are modelled as opaque serialized date
strings. -/
structure UserRecord where
  id : String
  username : String
  email : String
  password : String
  createdAt : String
  updatedAt : String
deriving DecidableEq, Repr

abbrev UserTable := List UserRecord

/-- Model of `UserModel.findOne({ where: { email } })`: first row matching
the email, if any. -/
def findOneByEmail (tbl : UserTable) (e : String) : Option UserRecord :=
  tbl.find? (fun u => u.email == e)

/-- Row as handed to `UserModel.create`; a JavaScript field can be absent. -/
structure UserInput where
  id : Option String
  username : Option String
  email : Option String
  password : Option String
deriving DecidableEq, Repr

inductive DbError
  | NotNullViolation
  | DuplicateError
deriving DecidableEq, Repr

/-- A column value is acceptable when present, or when the column tolerates
absence (`allowNull` and not a primary key). -/
def requiredPresent (col : ColumnSpec) (v : Option String) : Bool :=
  v.isSome || (col.allowNull && !col.primaryKey)

/-- Model of `UserModel.create(row)` at insertion clock `ts` (the
serialized `new Date()` Sequelize assigns to the managed timestamps):
reject a null in a non-nullable column, reject a duplicate in the
primary-key column and in any column declared `unique`, otherwise append
the new row — with `createdAt` and `updatedAt` both set to `ts` — and
return it. -/
def storeCreate (tbl : UserTable) (ts : String) (r : UserInput) :
    Except DbError (UserRecord × UserTable) :=
  if !(requiredPresent idColumn r.id && requiredPresent usernameColumn r.username
      && requiredPresent emailColumn r.email && requiredPresent passwordColumn r.password) then
    Except.error DbError.NotNullViolation
  else
    match r.id, r.username, r.email, r.password with
    | some i, some un, some e, some pw =>
      if idColumn.primaryKey && tbl.any (fun u => u.id == i) then
        Except.error DbError.DuplicateError
      else if emailColumn.unique && tbl.any (fun u => u.email == e) then
        Except.error DbError.DuplicateError
      else
        Except.ok (⟨i, un, e, pw, ts, ts⟩, tbl ++ [⟨i, un, e, pw, ts, ts⟩])
    | _, _, _, _ => Except.error DbError.NotNullViolation

/-- Serialization of a row as `res.json` sends it: every model attribute,
the password hash and the managed timestamps included. -/
def userJson (u : UserRecord) : List (String × String) :=
  [("id", u.id), ("username", u.username), ("email", u.email), ("password", u.password),
   ("createdAt", u.createdAt), ("updatedAt", u.updatedAt)]

/-! ## HTTP routes (`routes/auth.routes.js`) and middleware -/

/-- Response as produced by the route handlers: status, `message` field,
optional `user` object and optional `accessToken`. -/
structure ApiResponse where
  status : Nat
  message : String
  user : Option UserRecord
  accessToken : Option String
deriving DecidableEq, Repr

/-- Body of `POST /auth/signup`; the password may be absent, in which case
`bcryptjs.hashSync(undefined, ...)` throws inside the `try`. -/
structure SignupBody where
  username : String
  email : String
  password : Option String
deriving DecidableEq, Repr

/-- Model of the `POST /auth/signup` handler: duplicate-email lookup first,
then hash-and-create, 201 with `{ message, user }` on success, and the
`catch` answering 500 `Create user Error` when hashing or creation throws.
`salt` is the `bcryptjs.genSaltSync(10)` output, `uuid` the `uuidv4()`
value of this request and `ts` the insertion clock Sequelize stamps on the
managed timestamp columns. -/
def signupRoute (tbl : UserTable) (salt uuid ts : String) (b : SignupBody) :
    ApiResponse × UserTable :=
  match findOneByEmail tbl b.email with
  | some _ => (⟨400, "Users exists!", none, none⟩, tbl)
  | none =>
    match b.password with
    | none => (⟨500, "Create user Error", none, none⟩, tbl)
    | some pw =>
      match storeCreate tbl ts ⟨some uuid, some b.username, some b.email, some (hashSync pw salt)⟩ with
      | Except.ok pr => (⟨201, "Users created!", some pr.1, none⟩, pr.2)
      | Except.error _ => (⟨500, "Create user Error", none, none⟩, tbl)

structure SigninBody where
  email : String
  password : String
deriving DecidableEq, Repr

/-- Hardcoded signing secret, as in both `auth.routes.js` and
`auth.middleware.js`. -/
def jwt_token_secret : String := "1234"

/-- Model of the `POST /auth/signin` handler at clock time `now`: email
lookup, bcrypt compare, then `jwt.sign({ email }, secret, { expiresIn:
"1h" })`. -/
def signinRoute (tbl : UserTable) (now : Nat) (b : SigninBody) : ApiResponse :=
  match findOneByEmail tbl b.email with
  | none => ⟨400, "Users not exists!", none, none⟩
  | some u =>
    if !(compareSync b.password u.password) then ⟨400, "Incorrect password!", none, none⟩
    else ⟨200, "Login ok!", none, some (jwtSignStr jwt_token_secret b.email now 3600)⟩

/-- Everything the middleware did to a request: the responses it wrote, in
order, the `req.user` it attached, and whether it invoked `next()`. -/
structure MwResult where
  responses : List (Nat × String)
  user : Option Claim
  nextCalled : Bool
deriving DecidableEq, Repr

/-- Model of `authMiddleware`.  Faithful to the source's missing `return`:
a failed scheme check writes the 403 response but execution falls through
into the `try` block, where `accessToken.split(" ")[1]` is verified —
`jwt.verify` of a missing header or missing second word throws (caught as
401), while a verifiable second word still reaches `next()`. -/
def authMiddleware (now : Nat) (auth : Option String) : MwResult :=
  let pre : List (Nat × String) :=
    match auth with
    | none => [(403, "Incorrect Token! ")]
    | some a =>
      if a.data.isEmpty || !(List.isPrefixOf "Bearer ".data a.data) then
        [(403, "Incorrect Token! ")]
      else []
  match auth with
  | none => ⟨pre ++ [(401, "Unauthorized!")], none, false⟩
  | some a =>
    match (splitChar ' ' a.data).get? 1 with
    | none => ⟨pre ++ [(401, "Unauthorized!")], none, false⟩
    | some tok =>
      match jwtVerify jwt_token_secret now tok with
      | Except.ok c => ⟨pre, some c, true⟩
      | Except.error _ => ⟨pre ++ [(401, "Unauthorized!")], none, false⟩

/-- Model of `GET /protected`: the middleware runs first; the protected
handler runs exactly when the middleware called `next()`, and answers 200
with the greeting built from `req.user.email`. -/
def protectedRoute (now : Nat) (auth : Option String) : List (Nat × String) :=
  match authMiddleware now auth with
  | ⟨resps, some c, true⟩ =>
    resps ++ [(200, "Has entrado en ruta privada! y tu email es: " ++ c.email)]
  | ⟨resps, _, _⟩ => resps

/-! ## Frontend state containers

Both frontends persist the session in a `token` cookie.  The browser cookie
store is external to the repository, so it is modelled as a name/value
association list; `getCookie`, `setCookie` and `deleteCookie` mirror the
helpers both frontends define over `document.cookie`.  JavaScript `!!s`
truthiness of a possibly-absent string is `truthyStr`. -/

abbrev CookieJar := List (String × String)

def getCookie (jar : CookieJar) (nm : String) : Option String :=
  (jar.find? (fun p => p.1 == nm)).map (fun p => p.2)

def setCookie (jar : CookieJar) (nm v : String) : CookieJar :=
  (nm, v) :: jar.filter (fun p => !(p.1 == nm))

def deleteCookie (jar : CookieJar) (nm : String) : CookieJar :=
  jar.filter (fun p => !(p.1 == nm))

def truthyStr : Option String → Bool
  | none => false
  | some s => !s.data.isEmpty

/-- State of the Context provider (`UserContext.jsx`): `user`, `token`
(hydrated from the cookie), `loading` (true until the first effect runs). -/
structure CtxState where
  user : Option String
  token : Option String
  loading : Bool
deriving DecidableEq, Repr

def ctxInit (jar : CookieJar) : CtxState := ⟨none, getCookie jar "token", true⟩

/-- The Context frontend's `isAuthenticated = !!token`, recomputed from the
token on every render. -/
def ctxIsAuthenticated (st : CtxState) : Bool := truthyStr st.token

def ctxLogin (st : CtxState) (accessToken userEmail : String) : CtxState :=
  ⟨some userEmail, some accessToken, st.loading⟩

def ctxLogout (st : CtxState) : CtxState := ⟨none, none, st.loading⟩

/-- State of the Redux `auth` slice (`authSlice.js`): here `isAuthenticated`
is a stored field, not a computed one. -/
structure ReduxAuthState where
  user : Option String
  token : Option String
  loading : Bool
  error : Option String
  isAuthenticated : Bool
deriving DecidableEq, Repr

/-- The slice's `initialState`, hydrated from the `token` cookie;
`isAuthenticated` starts as `!!getCookie('token')`. -/
def reduxInitialState (jar : CookieJar) : ReduxAuthState :=
  ⟨none, getCookie jar "token", false, none, truthyStr (getCookie jar "token")⟩

inductive AuthAction
  | loginStart
  | loginSuccess (token email : String)
  | loginFailure (msg : String)
  | logout
  | clearError
  | setLoading (b : Bool)
deriving DecidableEq, Repr

/-- The slice's reducers, each also performing its cookie side effect. -/
def authReducer (st : ReduxAuthState) (jar : CookieJar) :
    AuthAction → ReduxAuthState × CookieJar
  | AuthAction.loginStart => (⟨st.user, st.token, true, none, st.isAuthenticated⟩, jar)
  | AuthAction.loginSuccess tok em =>
    (⟨some em, some tok, false, none, true⟩, setCookie jar "token" tok)
  | AuthAction.loginFailure msg => (⟨none, none, false, some msg, false⟩, jar)
  | AuthAction.logout => (⟨none, none, false, none, false⟩, deleteCookie jar "token")
  | AuthAction.clearError => (⟨st.user, st.token, st.loading, none, st.isAuthenticated⟩, jar)
  | AuthAction.setLoading b => (⟨st.user, st.token, b, st.error, st.isAuthenticated⟩, jar)

def applyActions (st : ReduxAuthState) (jar : CookieJar) :
    List AuthAction → ReduxAuthState × CookieJar
  | [] => (st, jar)
  | a :: rest =>
    applyActions (authReducer st jar a).1 (authReducer st jar a).2 rest

/-- What `ProtectedRoute.jsx` renders. -/
inductive RouteView
  | loadingView
  | navigateToLogin
  | childrenView
deriving DecidableEq, Repr

/-- The Redux `ProtectedRoute`: loading spinner while `loading`, redirect to
`/login` when not `isAuthenticated`, otherwise the protected children. -/
def protectedRouteView (st : ReduxAuthState) : RouteView :=
  if st.loading then RouteView.loadingView
  else if !st.isAuthenticated then RouteView.navigateToLogin
  else RouteView.childrenView

/-- Table with one registered user, `alice@x.com`, for the concrete signin
distinguishability evaluation. -/
def aliceTable : UserTable :=
  [⟨"u1", "alice", "alice@x.com", hashSync "secret123" "s", "t0", "t0"⟩]

/-- Table with one registered user and an opaque stored hash, for the
concrete duplicate-email and missing-password instances. -/
def aliceTableW : UserTable := [⟨"u1", "alice", "alice@x.com", "h", "t0", "t0"⟩]

/-! ## Lemmas about the list utilities -/

theorem splitChar_ne_nil (sep : Char) (l : List Char) : splitChar sep l ≠ [] := by
  cases l with
  | nil => simp [splitChar]
  | cons c cs =>
    simp only [splitChar]
    cases h : splitChar sep cs with
    | nil => simp
    | cons h t =>
      by_cases hc : c = sep <;> simp [hc]

theorem splitChar_no_sep {sep : Char} {l : List Char} (h : sep ∉ l) :
    splitChar sep l = [l] := by
  induction l with
  | nil => rfl
  | cons c cs ih =>
    have hc : c ≠ sep := fun hcs => h (hcs ▸ List.mem_cons_self c cs)
    have hcs : sep ∉ cs := fun hm => h (List.mem_cons_of_mem c hm)
    simp only [splitChar, ih hcs]
    simp [hc]

theorem splitChar_append {sep : Char} {A : List Char} (B : List Char)
    (h : sep ∉ A) : splitChar sep (A ++ sep :: B) = A :: splitChar sep B := by
  induction A with
  | nil =>
    simp only [List.nil_append, splitChar]
    cases hB : splitChar sep B with
    | nil => exact absurd hB (splitChar_ne_nil sep B)
    | cons hB t => simp
  | cons c cs ih =>
    have hc : c ≠ sep := fun hcs => h (hcs ▸ List.mem_cons_self c cs)
    have hcs : sep ∉ cs := fun hm => h (List.mem_cons_of_mem c hm)
    simp only [List.cons_append, splitChar, List.append_eq]
    rw [ih hcs]
    simp [hc]

theorem splitFirst_append {sep : Char} {A : List Char} (B : List Char)
    (h : sep ∉ A) : splitFirst sep (A ++ sep :: B) = some (A, B) := by
  induction A with
  | nil => simp [splitFirst]
  | cons c cs ih =>
    have hc : c ≠ sep := fun hcs => h (hcs ▸ List.mem_cons_self c cs)
    have hcs : sep ∉ cs := fun hm => h (List.mem_cons_of_mem c hm)
    simp [splitFirst, hc, ih hcs]

theorem unescChar_escChar (c : Char) :
    ∃ a b, escChar c = [a, b] ∧ unescChar a b = some c := by
  by_cases hd : c = '.'
  · exact ⟨'%', 'd', by simp [escChar, unescChar, hd]⟩
  · by_cases hs : c = ' '
    · exact ⟨'%', 's', by simp [escChar, unescChar, hs]⟩
    · by_cases hp : c = '%'
      · exact ⟨'%', 'p', by simp [escChar, unescChar, hp]⟩
      · exact ⟨c, '_', by simp [escChar, unescChar, hd, hs, hp]⟩

theorem unesc_esc (l : List Char) : unesc (esc l) = some l := by
  induction l with
  | nil => rfl
  | cons c cs ih =>
    obtain ⟨a, b, hab, hdec⟩ := unescChar_escChar c
    simp [esc, hab, unesc, hdec, ih]

theorem esc_injective {a b : List Char} (h : esc a = esc b) : a = b := by
  have := unesc_esc a
  rw [h, unesc_esc b] at this
  exact (Option.some_injective _ this).symm

theorem dot_not_mem_escChar (c : Char) : '.' ∉ escChar c := by
  by_cases h1 : c = '.'
  · simp [escChar, h1]
  · by_cases h2 : c = ' '
    · simp [escChar, h1, h2]
    · by_cases h3 : c = '%'
      · simp [escChar, h1, h2, h3]
      · have he : escChar c = [c, '_'] := by simp [escChar, h1, h2, h3]
        rw [he]
        intro hmem
        rcases List.mem_cons.mp hmem with h | h
        · exact h1 h.symm
        · rcases List.mem_cons.mp h with h | h
          · exact absurd h (by decide)
          · exact absurd h (List.not_mem_nil _)

theorem space_not_mem_escChar (c : Char) : ' ' ∉ escChar c := by
  by_cases h1 : c = '.'
  · simp [escChar, h1]
  · by_cases h2 : c = ' '
    · simp [escChar, h1, h2]
    · by_cases h3 : c = '%'
      · simp [escChar, h1, h2, h3]
      · have he : escChar c = [c, '_'] := by simp [escChar, h1, h2, h3]
        rw [he]
        intro hmem
        rcases List.mem_cons.mp hmem with h | h
        · exact h2 h.symm
        · rcases List.mem_cons.mp h with h | h
          · exact absurd h (by decide)
          · exact absurd h (List.not_mem_nil _)

theorem dot_not_mem_esc (l : List Char) : '.' ∉ esc l := by
  induction l with
  | nil => simp [esc]
  | cons c cs ih =>
    simp only [esc, List.mem_append]
    rintro (h | h)
    · exact absurd h (dot_not_mem_escChar c)
    · exact absurd h ih

theorem space_not_mem_esc (l : List Char) : ' ' ∉ esc l := by
  induction l with
  | nil => simp [esc]
  | cons c cs ih =>
    simp only [esc, List.mem_append]
    rintro (h | h)
    · exact absurd h (space_not_mem_escChar c)
    · exact absurd h ih

theorem isPrefixOf_append_self (l m : List Char) : List.isPrefixOf l (l ++ m) = true := by
  induction l with
  | nil => simp [List.isPrefixOf]
  | cons a as ih => simp [List.isPrefixOf, ih]

theorem listSet_ne (l : List Char) (i : Nat) (c : Char) (h : i < l.length)
    (hne : l.get ⟨i, h⟩ ≠ c) : l.set i c ≠ l := by
  induction l generalizing i with
  | nil => simp at h
  | cons a as ih =>
    cases i with
    | zero =>
      simp only [List.get] at hne
      simp only [List.set]
      intro heq
      injection heq with h1 h2
      exact hne h1.symm
    | succ n =>
      have hn : n < as.length := Nat.lt_of_succ_lt_succ h
      have hne2 : as.get ⟨n, hn⟩ ≠ c := hne
      simp only [List.set]
      intro heq
      injection heq with h1 h2
      exact ih n hn hne2 h2

theorem stringData_inj {s t : String} (h : s.data = t.data) : s = t := by
  cases s
  cases t
  cases h
  rfl

/-! ## Lemmas about the token model -/

theorem semi_not_mem_encodeNat (n : Nat) : ';' ∉ encodeNat n := by
  intro h
  have := List.eq_of_mem_replicate h
  exact absurd this (by decide)

theorem all_one_encodeNat (n : Nat) : (encodeNat n).all (fun c => c == '1') = true := by
  rw [List.all_eq_true]
  intro x hx
  have := List.eq_of_mem_replicate hx
  subst this
  rfl

theorem decodePayload_encodeClaim (c : Claim) :
    decodePayload (encodeClaim c) = some c := by
  have h1 : splitFirst ';' (encodeClaim c) =
      some (encodeNat c.iat, encodeNat c.exp ++ ';' :: c.email.data) :=
    splitFirst_append _ (semi_not_mem_encodeNat c.iat)
  have h2 : splitFirst ';' (encodeNat c.exp ++ ';' :: c.email.data) =
      some (encodeNat c.exp, c.email.data) :=
    splitFirst_append _ (semi_not_mem_encodeNat c.exp)
  simp only [decodePayload, h1, h2]
  simp [all_one_encodeNat]
  simp [encodeNat]

theorem macChars_injective {secret : String} {p q : List Char}
    (h : macChars secret p = macChars secret q) : p = q := by
  have h2 : secret.data ++ '.' :: p = secret.data ++ '.' :: q := esc_injective h
  have h3 : '.' :: p = '.' :: q := List.append_cancel_left h2
  injection h3 with h4 h5

theorem splitChar_signChars (secret : String) (c : Claim) :
    splitChar '.' (signChars secret c) =
      [jwtHeader, esc (encodeClaim c), macChars secret (esc (encodeClaim c))] := by
  unfold signChars macChars
  rw [splitChar_append _ (by decide), splitChar_append _ (dot_not_mem_esc _),
    splitChar_no_sep (dot_not_mem_esc _)]

theorem jwtVerify_signChars (secret : String) (now : Nat) (c : Claim) :
    jwtVerify secret now (signChars secret c) =
      if c.exp ≤ now then Except.error AuthError.Expired else Except.ok c := by
  unfold jwtVerify
  rw [splitChar_signChars]
  simp [unesc_esc, decodePayload_encodeClaim]

theorem space_not_mem_signChars (secret : String) (c : Claim) :
    ' ' ∉ signChars secret c := by
  unfold signChars
  intro h
  rcases List.mem_append.mp h with h | h
  · exact absurd h (by decide)
  · rcases List.mem_cons.mp h with h | h
    · exact absurd h (by decide)
    · rcases List.mem_append.mp h with h | h
      · exact absurd h (space_not_mem_esc _)
      · rcases List.mem_cons.mp h with h | h
        · exact absurd h (by decide)
        · exact absurd h (space_not_mem_esc _)

/-! ## Lemmas about hashing, the store and the routes -/

theorem compareSync_hashSync {salt : String} (hsalt : '$' ∉ salt.data)
    (q p : String) : compareSync q (hashSync p salt) = (q == p) := by
  unfold compareSync hashSync
  rw [show (String.mk (salt.data ++ '$' :: p.data)).data = salt.data ++ '$' :: p.data from rfl,
    splitFirst_append _ hsalt]
  by_cases h : q = p
  · subst h; simp
  · have hqp : ¬(p.data = q.data) := fun hd => h (stringData_inj hd).symm
    simp [h, hqp]

theorem findOneByEmail_append_none {tbl : UserTable} {e : String}
    (h : findOneByEmail tbl e = none) (tbl2 : UserTable) :
    findOneByEmail (tbl ++ tbl2) e = findOneByEmail tbl2 e := by
  unfold findOneByEmail at h ⊢
  rw [List.find?_append, h]
  rfl

theorem findOneByEmail_mem {tbl : UserTable} {u : UserRecord} {e : String}
    (hu : u ∈ tbl) (he : u.email = e) : ∃ v, findOneByEmail tbl e = some v := by
  have hsome : (tbl.find? (fun x => x.email == e)).isSome := by
    apply List.find?_isSome.mpr
    exact ⟨u, hu, by simp [he]⟩
  exact Option.isSome_iff_exists.mp hsome

theorem mwPre_bearer (T : String) :
    (("Bearer " ++ T).data.isEmpty
      || !(List.isPrefixOf "Bearer ".data ("Bearer " ++ T).data)) = false := by
  have h1 : ("Bearer " ++ T).data.isEmpty = false := rfl
  have hd : ("Bearer " ++ T).data = "Bearer ".data ++ T.data := rfl
  have h2 : List.isPrefixOf "Bearer ".data ("Bearer " ++ T).data = true := by
    rw [hd]
    exact isPrefixOf_append_self _ _
  rw [h1, h2]
  rfl

/-- For a space-free token carried behind the exact `Bearer ` scheme, the
middleware recovers the token as `split(" ")[1]`, verifies it, attaches the
claim and calls `next()` with no error response written. -/
theorem authMiddleware_bearer (now : Nat) (T : String) (hsp : ' ' ∉ T.data)
    (c : Claim) (hv : jwtVerify jwt_token_secret now T.data = Except.ok c) :
    authMiddleware now (some ("Bearer " ++ T)) = ⟨[], some c, true⟩ := by
  unfold authMiddleware
  simp [mwPre_bearer T]
  rw [show ('B' :: 'e' :: 'a' :: 'r' :: 'e' :: 'r' :: ' ' :: T.data)
      = ['B', 'e', 'a', 'r', 'e', 'r'] ++ ' ' :: T.data from rfl,
    splitChar_append _ (by decide), splitChar_no_sep hsp]
  simp [hv]

theorem storeCreate_success (tbl : UserTable) (ts i un e pw : String)
    (hid : tbl.any (fun u => u.id == i) = false) :
    storeCreate tbl ts ⟨some i, some un, some e, some pw⟩
      = Except.ok (⟨i, un, e, pw, ts, ts⟩, tbl ++ [⟨i, un, e, pw, ts, ts⟩]) := by
  simp [storeCreate, requiredPresent, idColumn, emailColumn, hid]

theorem signupRoute_success (tbl : UserTable) (salt uuid ts username email password : String)
    (hfree : findOneByEmail tbl email = none)
    (hid : tbl.any (fun u => u.id == uuid) = false) :
    signupRoute tbl salt uuid ts ⟨username, email, some password⟩
      = (⟨201, "Users created!",
          some ⟨uuid, username, email, hashSync password salt, ts, ts⟩, none⟩,
         tbl ++ [⟨uuid, username, email, hashSync password salt, ts, ts⟩]) := by
  simp [signupRoute, hfree,
    storeCreate_success tbl ts uuid username email (hashSync password salt) hid]

/-- Tokens issued by the signin route are non-empty strings (this is what
justifies the non-empty `loginSuccess` payload hypothesis of the frontend
invariant: `Login.jsx` dispatches the `accessToken` of a 200 response). -/
theorem jwtSignStr_ne_empty (secret email : String) (now ttl : Nat) :
    jwtSignStr secret email now ttl ≠ "" := by
  intro h
  have hd : (jwtSignStr secret email now ttl).data = [] := by rw [h]
  have hsc : signChars secret ⟨email, now, now + ttl⟩ = [] := hd
  simp [signChars, jwtHeader] at hsc

theorem truthyStr_some_ne_empty {t : String} (h : t ≠ "") :
    truthyStr (some t) = true := by
  unfold truthyStr
  have hd : t.data ≠ [] := by
    intro hd
    apply h
    cases t
    cases hd
    rfl
  cases he : t.data with
  | nil => exact absurd he hd
  | cons a as => simp [he]

/-- Every reducer step preserves `isAuthenticated = !!token`, as long as the
`loginSuccess` payloads carry non-empty token strings. -/
theorem reduxInvariant (acts : List AuthAction) (st : ReduxAuthState) (jar : CookieJar)
    (hst : st.isAuthenticated = truthyStr st.token)
    (hacts : ∀ t e, AuthAction.loginSuccess t e ∈ acts → t ≠ "") :
    (applyActions st jar acts).1.isAuthenticated =
      truthyStr (applyActions st jar acts).1.token := by
  induction acts generalizing st jar with
  | nil => exact hst
  | cons a rest ih =>
    have hrest : ∀ t e, AuthAction.loginSuccess t e ∈ rest → t ≠ "" :=
      fun t e hm => hacts t e (List.mem_cons_of_mem a hm)
    cases a with
    | loginStart => exact ih _ _ hst hrest
    | loginSuccess tok em =>
      have htok : tok ≠ "" := hacts tok em (List.mem_cons_self _ _)
      exact ih _ _ (by simp [authReducer, truthyStr_some_ne_empty htok]) hrest
    | loginFailure msg => exact ih _ _ (by simp [authReducer, truthyStr]) hrest
    | logout => exact ih _ _ (by simp [authReducer, truthyStr]) hrest
    | clearError => exact ih _ _ hst hrest
    | setLoading b => exact ih _ _ hst hrest

/-! ## The claims -/

/-- Claim C1: the spec requires protected-route admission failure to be
terminal — an error response and no invocation of the protected handler.
The middleware's missing `return` after the 403 violates this: a request
whose `Authorization` header carries a wrong scheme (`bearer`, lowercase)
around a verifiable token gets the 403 written, yet `jwt.verify` still
succeeds on `split(" ")[1]` and `next()` runs the protected handler, which
answers 200.  This evaluates the embedded middleware and route at that
failing input. -/
theorem protected_admission_not_terminal :
    (authMiddleware 1 (some ("bearer " ++ jwtSignStr "1234" "a@b.c" 0 5))).responses
      = [(403, "Incorrect Token! ")]
    ∧ (authMiddleware 1 (some ("bearer " ++ jwtSignStr "1234" "a@b.c" 0 5))).nextCalled = true
    ∧ protectedRoute 1 (some ("bearer " ++ jwtSignStr "1234" "a@b.c" 0 5))
      = [(403, "Incorrect Token! "),
         (200, "Has entrado en ruta privada! y tu email es: a@b.c")] := by
  decide

/-- Claim C2: the spec requires signin failure for an unknown email and for
a wrong password on a known email to be indistinguishable (same error kind
and message).  The code violates this: both are status 400, but the
messages `Users not exists!` and `Incorrect password!` differ, so the two
error results are distinguishable by the caller. -/
theorem signin_error_messages_distinguishable :
    (signinRoute aliceTable 5 ⟨"bob@x.com", "secret123"⟩).status = 400
    ∧ (signinRoute aliceTable 5 ⟨"alice@x.com", "wrong"⟩).status = 400
    ∧ (signinRoute aliceTable 5 ⟨"bob@x.com", "secret123"⟩).message = "Users not exists!"
    ∧ (signinRoute aliceTable 5 ⟨"alice@x.com", "wrong"⟩).message = "Incorrect password!"
    ∧ (signinRoute aliceTable 5 ⟨"bob@x.com", "secret123"⟩).message
      ≠ (signinRoute aliceTable 5 ⟨"alice@x.com", "wrong"⟩).message := by
  decide

/-- Claim C3: a successfully registered (username, email, password) can sign
in with that email and password, obtaining a 200 with a token, and the
middleware admits `Bearer ` plus that token, attaching the claim whose
email is the registered one, calling `next()` and writing no error. -/
theorem signup_signin_roundtrip (tbl : UserTable)
    (salt uuid ts username email password : String) (now : Nat)
    (hsalt : '$' ∉ salt.data)
    (hfree : findOneByEmail tbl email = none)
    (hid : tbl.any (fun u => u.id == uuid) = false) :
    (signupRoute tbl salt uuid ts ⟨username, email, some password⟩).1.status = 201
    ∧ signinRoute (signupRoute tbl salt uuid ts ⟨username, email, some password⟩).2 now
        ⟨email, password⟩
      = ⟨200, "Login ok!", none, some (jwtSignStr jwt_token_secret email now 3600)⟩
    ∧ authMiddleware now (some ("Bearer " ++ jwtSignStr jwt_token_secret email now 3600))
      = ⟨[], some ⟨email, now, now + 3600⟩, true⟩ := by
  have hs := signupRoute_success tbl salt uuid ts username email password hfree hid
  refine ⟨by rw [hs], ?_, ?_⟩
  · rw [hs]
    have hfind2 : findOneByEmail
        (tbl ++ [⟨uuid, username, email, hashSync password salt, ts, ts⟩]) email
        = some ⟨uuid, username, email, hashSync password salt, ts, ts⟩ := by
      rw [findOneByEmail_append_none hfree]
      simp [findOneByEmail]
    simp [signinRoute, hfind2, compareSync_hashSync hsalt password password]
  · apply authMiddleware_bearer
    · exact space_not_mem_signChars jwt_token_secret ⟨email, now, now + 3600⟩
    · show jwtVerify jwt_token_secret now (signChars jwt_token_secret ⟨email, now, now + 3600⟩)
        = Except.ok ⟨email, now, now + 3600⟩
      rw [jwtVerify_signChars]
      have hlt : ¬((⟨email, now, now + 3600⟩ : Claim).exp ≤ now) := by
        show ¬(now + 3600 ≤ now)
        omega
      simp [hlt]

theorem signup_signin_roundtrip_witness :
    ('$' ∉ "s".data
      ∧ findOneByEmail [] "a@b.c" = none
      ∧ ([] : AuthRepo.UserTable).any (fun u => u.id == "u1") = false)
    ∧ ((signupRoute [] "s" "u1" "t0" ⟨"alice", "a@b.c", some "pw"⟩).1.status = 201
      ∧ signinRoute (signupRoute [] "s" "u1" "t0" ⟨"alice", "a@b.c", some "pw"⟩).2 0
          ⟨"a@b.c", "pw"⟩
        = ⟨200, "Login ok!", none, some (jwtSignStr jwt_token_secret "a@b.c" 0 3600)⟩
      ∧ authMiddleware 0 (some ("Bearer " ++ jwtSignStr jwt_token_secret "a@b.c" 0 3600))
        = ⟨[], some ⟨"a@b.c", 0, 0 + 3600⟩, true⟩) :=
  ⟨⟨by decide, rfl, rfl⟩,
    signup_signin_roundtrip [] "s" "u1" "t0" "alice" "a@b.c" "pw" 0 (by decide) rfl rfl⟩

/-- Claim C4: altering one character of a valid token's payload segment or
signature segment (a replacement within the segment alphabet, so the
altered string still parses into three segments) makes the validator fail
with `InvalidSignature` — never a successful identity. -/
theorem tampered_token_invalid_signature (secret : String) (c : Claim) (now : Nat)
    (i : Nat) (x : Char) (hxd : x ≠ '.')
    (hi : i < (esc (encodeClaim c)).length)
    (hx : (esc (encodeClaim c))[i]? ≠ some x)
    (j : Nat) (y : Char) (hyd : y ≠ '.')
    (hj : j < (macChars secret (esc (encodeClaim c))).length)
    (hy : (macChars secret (esc (encodeClaim c)))[j]? ≠ some y) :
    jwtVerify secret now
        (jwtHeader ++ '.' :: ((esc (encodeClaim c)).set i x
          ++ '.' :: macChars secret (esc (encodeClaim c))))
      = Except.error AuthError.InvalidSignature
    ∧ jwtVerify secret now
        (jwtHeader ++ '.' :: (esc (encodeClaim c)
          ++ '.' :: (macChars secret (esc (encodeClaim c))).set j y))
      = Except.error AuthError.InvalidSignature := by
  have hgetx : (esc (encodeClaim c)).get ⟨i, hi⟩ ≠ x := by
    intro he
    apply hx
    rw [List.getElem?_eq_getElem hi]
    exact congrArg some he
  have hpne : (esc (encodeClaim c)).set i x ≠ esc (encodeClaim c) :=
    listSet_ne _ i x hi hgetx
  have hgety : (macChars secret (esc (encodeClaim c))).get ⟨j, hj⟩ ≠ y := by
    intro he
    apply hy
    rw [List.getElem?_eq_getElem hj]
    exact congrArg some he
  have hsne : (macChars secret (esc (encodeClaim c))).set j y
      ≠ macChars secret (esc (encodeClaim c)) :=
    listSet_ne _ j y hj hgety
  have hdotp : '.' ∉ (esc (encodeClaim c)).set i x := by
    intro hm
    rcases List.mem_or_eq_of_mem_set hm with h | h
    · exact absurd h (dot_not_mem_esc _)
    · exact hxd h.symm
  have hdots : '.' ∉ (macChars secret (esc (encodeClaim c))).set j y := by
    intro hm
    rcases List.mem_or_eq_of_mem_set hm with h | h
    · exact absurd h (dot_not_mem_esc _)
    · exact hyd h.symm
  have hds : '.' ∉ macChars secret (esc (encodeClaim c)) := dot_not_mem_esc _
  constructor
  · have hsp : splitChar '.'
        (jwtHeader ++ '.' :: ((esc (encodeClaim c)).set i x
          ++ '.' :: macChars secret (esc (encodeClaim c))))
        = [jwtHeader, (esc (encodeClaim c)).set i x,
           macChars secret (esc (encodeClaim c))] := by
      rw [splitChar_append _ (by decide), splitChar_append _ hdotp,
        splitChar_no_sep hds]
    have hcond : ¬(macChars secret (esc (encodeClaim c))
        = macChars secret ((esc (encodeClaim c)).set i x)) :=
      fun he => hpne (macChars_injective he.symm)
    simp [jwtVerify, hsp, hcond]
  · have hsp : splitChar '.'
        (jwtHeader ++ '.' :: (esc (encodeClaim c)
          ++ '.' :: (macChars secret (esc (encodeClaim c))).set j y))
        = [jwtHeader, esc (encodeClaim c),
           (macChars secret (esc (encodeClaim c))).set j y] := by
      rw [splitChar_append _ (by decide), splitChar_append _ (dot_not_mem_esc _),
        splitChar_no_sep hdots]
    simp [jwtVerify, hsp, hsne]

theorem tampered_token_invalid_signature_witness :
    (('Z' : Char) ≠ '.'
      ∧ 0 < (esc (encodeClaim ⟨"a", 0, 2⟩)).length
      ∧ (esc (encodeClaim ⟨"a", 0, 2⟩))[0]? ≠ some 'Z'
      ∧ 0 < (macChars "k" (esc (encodeClaim ⟨"a", 0, 2⟩))).length
      ∧ (macChars "k" (esc (encodeClaim ⟨"a", 0, 2⟩)))[0]? ≠ some 'Z')
    ∧ (jwtVerify "k" 1
        (jwtHeader ++ '.' :: ((esc (encodeClaim ⟨"a", 0, 2⟩)).set 0 'Z'
          ++ '.' :: macChars "k" (esc (encodeClaim ⟨"a", 0, 2⟩))))
      = Except.error AuthError.InvalidSignature
    ∧ jwtVerify "k" 1
        (jwtHeader ++ '.' :: (esc (encodeClaim ⟨"a", 0, 2⟩)
          ++ '.' :: (macChars "k" (esc (encodeClaim ⟨"a", 0, 2⟩))).set 0 'Z'))
      = Except.error AuthError.InvalidSignature) :=
  ⟨⟨by decide, by decide, by decide, by decide, by decide⟩,
    tampered_token_invalid_signature "k" ⟨"a", 0, 2⟩ 1 0 'Z' (by decide) (by decide)
      (by decide) 0 'Z' (by decide) (by decide) (by decide)⟩

/-- Claim C5: a token issued with positive ttl validates successfully at
issue time (current time is before `expiresAt`), and fails with `Expired`
at any time at or past `expiresAt`. -/
theorem issue_validate_expire (secret email : String) (now ttl t : Nat)
    (httl : 0 < ttl) (ht : now + ttl ≤ t) :
    jwtVerify secret now (jwtSignStr secret email now ttl).data
      = Except.ok ⟨email, now, now + ttl⟩
    ∧ jwtVerify secret t (jwtSignStr secret email now ttl).data
      = Except.error AuthError.Expired := by
  constructor
  · show jwtVerify secret now (signChars secret ⟨email, now, now + ttl⟩)
      = Except.ok ⟨email, now, now + ttl⟩
    rw [jwtVerify_signChars]
    have h1 : ¬((⟨email, now, now + ttl⟩ : Claim).exp ≤ now) := by
      show ¬(now + ttl ≤ now)
      omega
    simp [h1]
  · show jwtVerify secret t (signChars secret ⟨email, now, now + ttl⟩)
      = Except.error AuthError.Expired
    rw [jwtVerify_signChars]
    have h2 : (⟨email, now, now + ttl⟩ : Claim).exp ≤ t := ht
    simp [h2]

theorem issue_validate_expire_witness :
    (0 < 2 ∧ 0 + 2 ≤ 5)
    ∧ (jwtVerify "1234" 0 (jwtSignStr "1234" "a@b.c" 0 2).data
        = Except.ok ⟨"a@b.c", 0, 0 + 2⟩
      ∧ jwtVerify "1234" 5 (jwtSignStr "1234" "a@b.c" 0 2).data
        = Except.error AuthError.Expired) :=
  ⟨by decide, issue_validate_expire "1234" "a@b.c" 0 2 5 (by decide) (by decide)⟩

/-- Claim C6: signup against a table already containing the email fails with
the duplicate-user error (the code's 400 `Users exists!`) and leaves the
stored records exactly as they were — no creation, no mutation. -/
theorem signup_existing_email_no_mutation (tbl : UserTable) (salt uuid ts : String)
    (b : SignupBody) (u : UserRecord) (hu : u ∈ tbl) (he : u.email = b.email) :
    signupRoute tbl salt uuid ts b = (⟨400, "Users exists!", none, none⟩, tbl) := by
  obtain ⟨v, hv⟩ := findOneByEmail_mem hu he
  simp [signupRoute, hv]

theorem signup_existing_email_no_mutation_witness :
    ((⟨"u1", "alice", "alice@x.com", "h", "t0", "t0"⟩ : UserRecord) ∈ aliceTableW
      ∧ (⟨"u1", "alice", "alice@x.com", "h", "t0", "t0"⟩ : UserRecord).email
        = (⟨"bob", "alice@x.com", some "pw2"⟩ : SignupBody).email)
    ∧ signupRoute aliceTableW "s2" "u2" "t2" ⟨"bob", "alice@x.com", some "pw2"⟩
      = (⟨400, "Users exists!", none, none⟩, aliceTableW) :=
  ⟨⟨by decide, rfl⟩,
    signup_existing_email_no_mutation aliceTableW "s2" "u2" "t2"
      ⟨"bob", "alice@x.com", some "pw2"⟩ ⟨"u1", "alice", "alice@x.com", "h", "t0", "t0"⟩
      (by decide) rfl⟩

/-- Claim C7 counterexample: the 201 signup response does not consist of
exactly `{id, username, email}` — the handler sends `{ message, user }`
with the whole created row, and the serialized row carries a `password`
field holding the bcrypt hash. -/
theorem signup_response_contains_password_hash :
    (signupRoute [] "s" "u1" "t0" ⟨"alice", "alice@x.com", some "secret123"⟩).1.user
      = some ⟨"u1", "alice", "alice@x.com", hashSync "secret123" "s", "t0", "t0"⟩
    ∧ ((signupRoute [] "s" "u1" "t0" ⟨"alice", "alice@x.com", some "secret123"⟩).1.user.map
        (fun u => (userJson u).lookup "password"))
      = some (some (hashSync "secret123" "s")) := by
  decide

/-- Claim C7 as amended: for every successful signup, the 201 response
carries the message `Users created!` and the created user record, whose
serialization includes the `id`, `username` and `email` fields of the
created account — but not only those: it also includes a `password` field
holding the bcrypt hash. -/
theorem signup_response_full_record (tbl : UserTable)
    (salt uuid ts username email password : String)
    (hfree : findOneByEmail tbl email = none)
    (hid : tbl.any (fun u => u.id == uuid) = false) :
    (signupRoute tbl salt uuid ts ⟨username, email, some password⟩).1.status = 201
    ∧ (signupRoute tbl salt uuid ts ⟨username, email, some password⟩).1.message
      = "Users created!"
    ∧ ((signupRoute tbl salt uuid ts ⟨username, email, some password⟩).1.user.map
        (fun u => ((userJson u).lookup "id", (userJson u).lookup "username",
          (userJson u).lookup "email", (userJson u).lookup "password")))
      = some (some uuid, some username, some email, some (hashSync password salt)) := by
  rw [signupRoute_success tbl salt uuid ts username email password hfree hid]
  exact ⟨rfl, rfl, rfl⟩

theorem signup_response_full_record_witness :
    (findOneByEmail [] "a@b.c" = none
      ∧ ([] : AuthRepo.UserTable).any (fun u => u.id == "u3") = false)
    ∧ ((signupRoute [] "s3" "u3" "t3" ⟨"carol", "a@b.c", some "pw3"⟩).1.status = 201
    ∧ (signupRoute [] "s3" "u3" "t3" ⟨"carol", "a@b.c", some "pw3"⟩).1.message
      = "Users created!"
    ∧ ((signupRoute [] "s3" "u3" "t3" ⟨"carol", "a@b.c", some "pw3"⟩).1.user.map
        (fun u => ((userJson u).lookup "id", (userJson u).lookup "username",
          (userJson u).lookup "email", (userJson u).lookup "password")))
      = some (some "u3", some "carol", some "a@b.c", some (hashSync "pw3" "s3"))) :=
  ⟨⟨rfl, rfl⟩, signup_response_full_record [] "s3" "u3" "t3" "carol" "a@b.c" "pw3" rfl rfl⟩

/-- Claim C8: in the Context frontend `isAuthenticated` is computed as
`!!token` for every state; in the Redux frontend the stored flag equals
`!!token` at cookie hydration and after every action sequence whose
`loginSuccess` payloads carry non-empty tokens (which is what `Login.jsx`
dispatches — see `jwtSignStr_ne_empty`); and `ProtectedRoute` renders the
protected children for any client whose `token` cookie is any non-empty
string — no signature or expiry is checked anywhere in the frontends. -/
theorem isAuthenticated_is_token_nonempty (ctx : CtxState) (jar : CookieJar)
    (acts : List AuthAction) (v : String)
    (hacts : ∀ t e, AuthAction.loginSuccess t e ∈ acts → t ≠ "")
    (hv : getCookie jar "token" = some v) (hne : v ≠ "") :
    ctxIsAuthenticated ctx = truthyStr ctx.token
    ∧ (reduxInitialState jar).isAuthenticated = truthyStr (reduxInitialState jar).token
    ∧ (applyActions (reduxInitialState jar) jar acts).1.isAuthenticated
      = truthyStr (applyActions (reduxInitialState jar) jar acts).1.token
    ∧ protectedRouteView (reduxInitialState jar) = RouteView.childrenView := by
  refine ⟨rfl, rfl, ?_, ?_⟩
  · exact reduxInvariant acts _ jar rfl hacts
  · simp [protectedRouteView, reduxInitialState, hv, truthyStr_some_ne_empty hne]

theorem isAuthenticated_is_token_nonempty_witness :
    ((∀ t e, AuthAction.loginSuccess t e
        ∈ [AuthAction.loginStart, AuthAction.loginSuccess "tok1" "a@b.c", AuthAction.logout]
        → t ≠ "")
      ∧ getCookie [("token", "garbage")] "token" = some "garbage"
      ∧ ("garbage" : String) ≠ "")
    ∧ (ctxIsAuthenticated (ctxInit [("token", "garbage")])
        = truthyStr (ctxInit [("token", "garbage")]).token
      ∧ (reduxInitialState [("token", "garbage")]).isAuthenticated
        = truthyStr (reduxInitialState [("token", "garbage")]).token
      ∧ (applyActions (reduxInitialState [("token", "garbage")]) [("token", "garbage")]
          [AuthAction.loginStart, AuthAction.loginSuccess "tok1" "a@b.c",
           AuthAction.logout]).1.isAuthenticated
        = truthyStr (applyActions (reduxInitialState [("token", "garbage")])
            [("token", "garbage")]
            [AuthAction.loginStart, AuthAction.loginSuccess "tok1" "a@b.c",
             AuthAction.logout]).1.token
      ∧ protectedRouteView (reduxInitialState [("token", "garbage")])
        = RouteView.childrenView) :=
  ⟨⟨by
      intro t e hm
      simp at hm
      obtain ⟨h1, h2⟩ := hm
      subst h1
      decide,
    by decide, by decide⟩,
    isAuthenticated_is_token_nonempty (ctxInit [("token", "garbage")])
      [("token", "garbage")]
      [AuthAction.loginStart, AuthAction.loginSuccess "tok1" "a@b.c", AuthAction.logout]
      "garbage"
      (by
        intro t e hm
        simp at hm
        obtain ⟨h1, h2⟩ := hm
        subst h1
        decide)
      (by decide) (by decide)⟩

/-- Claim C9: the `email` column is declared a plain non-null string with no
uniqueness constraint (`allowNull := false`, `unique := false`, not a key),
so the storage-level `create` succeeds even when another row already holds
the same email — it appends and returns the new row, never a duplicate
error — while the route-level signup for that same email is stopped by the
gateway's preceding `findOne`, answering 400. -/
theorem email_not_unique_storage (tbl : UserTable) (u : UserRecord)
    (i un pw salt ts : String) (hu : u ∈ tbl)
    (hid : tbl.any (fun x => x.id == i) = false) :
    emailColumn = ⟨false, false, false⟩
    ∧ storeCreate tbl ts ⟨some i, some un, some u.email, some pw⟩
      = Except.ok (⟨i, un, u.email, pw, ts, ts⟩, tbl ++ [⟨i, un, u.email, pw, ts, ts⟩])
    ∧ (signupRoute tbl salt i ts ⟨un, u.email, some pw⟩).1.status = 400 := by
  obtain ⟨v, hv⟩ := findOneByEmail_mem hu rfl
  exact ⟨rfl, storeCreate_success tbl ts i un u.email pw hid, by simp [signupRoute, hv]⟩

theorem email_not_unique_storage_witness :
    ((⟨"u1", "alice", "alice@x.com", "h", "t0", "t0"⟩ : UserRecord) ∈ aliceTableW
      ∧ aliceTableW.any (fun x => x.id == "u9") = false)
    ∧ (emailColumn = ⟨false, false, false⟩
    ∧ storeCreate aliceTableW "t9" ⟨some "u9", some "ann", some "alice@x.com", some "pw"⟩
      = Except.ok (⟨"u9", "ann", "alice@x.com", "pw", "t9", "t9"⟩,
          aliceTableW ++ [⟨"u9", "ann", "alice@x.com", "pw", "t9", "t9"⟩])
    ∧ (signupRoute aliceTableW "s" "u9" "t9" ⟨"ann", "alice@x.com", some "pw"⟩).1.status = 400) :=
  ⟨⟨by decide, by decide⟩,
    email_not_unique_storage aliceTableW ⟨"u1", "alice", "alice@x.com", "h", "t0", "t0"⟩
      "u9" "ann" "pw" "s" "t9" (by decide) (by decide)⟩

/-- Claim C10: a signup request whose body has no `password` reaches
`bcryptjs.hashSync(undefined, ...)`, which throws; the `catch` answers the
generic 500 `Create user Error` (a server-fault response, not a validation
error), and the table is unchanged — no user record is created.  The email
is assumed unregistered, since a registered one is answered 400 by the
earlier duplicate check before hashing runs. -/
theorem signup_missing_password_500 (tbl : UserTable) (salt uuid ts username email : String)
    (hfree : findOneByEmail tbl email = none) :
    signupRoute tbl salt uuid ts ⟨username, email, none⟩
      = (⟨500, "Create user Error", none, none⟩, tbl) := by
  simp [signupRoute, hfree]

theorem signup_missing_password_500_witness :
    findOneByEmail aliceTableW "d@e.f" = none
    ∧ signupRoute aliceTableW "s" "u7" "t7" ⟨"dave", "d@e.f", none⟩
      = (⟨500, "Create user Error", none, none⟩, aliceTableW) :=
  ⟨by decide, signup_missing_password_500 aliceTableW "s" "u7" "t7" "dave" "d@e.f" (by decide)⟩

end AuthRepo
